import Mathlib

/-!
Shallow embedding of the `slogpretty` handler (`handler.go`, the `SlogPretty`
variant, which is the one carrying the `goas` context chain) together with the
option defaults from the options file (`DefaultTimeFormat`, `DefaultOptions`).

Conventions of the embedding:
* Go byte buffers (`[]byte` built with `fmt.Appendf`) become Lean `String`s;
  every `fmt.Appendf(buf, format, args...)` is translated to the corresponding
  string concatenation.
* `slog.Level` is an `Int` (`LevelDebug = -4`, `LevelInfo = 0`, `LevelWarn = 4`,
  `LevelError = 8`), exactly the integer values of the Go standard library.
* `slog.Value` becomes the inductive `Value` below.  Values whose textual form
  is produced by the Go standard library from data the formatter never inspects
  (floats, durations, `any` values) carry that stdlib-produced text directly;
  time values carry their stdlib `Format` function (pattern ↦ formatted text),
  since the handler formats them with `opts.TimeFormat`.
* The mutex-guarded `h.out.Write(buf)` becomes an explicit `sink` function
  `String → Option String` (`none` = nil error); the single `Write` call of the
  source is the single sink application of `handle`, and the list of buffers
  handed to the sink is returned explicitly so that theorems can talk about how
  many writes happened.
* The mutation of `h.goas` performed by `removeEmptyGroup` (a pointer-receiver
  method that reassigns the field) is made explicit: `handleRender` returns the
  handler state after the call next to the rendered buffer.
-/

namespace Slogpretty

/-- ANSI reset sequence, `"\033[0m"` in the source. -/
def ansiReset : String := "\x1b[0m"

/-- Color codes from the source's `const` block. -/
def black : Nat := 30

def red : Nat := 31

def green : Nat := 32

def yellow : Nat := 33

def blue : Nat := 34

def magenta : Nat := 35

def cyan : Nat := 36

def lightGray : Nat := 37

def darkGray : Nat := 90

def lightRed : Nat := 91

def lightGreen : Nat := 92

def lightYellow : Nat := 93

def lightBlue : Nat := 94

def lightMagenta : Nat := 95

def lightCyan : Nat := 96

def white : Nat := 97

/-- `colorize(colorCode, v) = fmt.Sprintf("\033[%sm%s%s", strconv.Itoa(colorCode), v, reset)`. -/
def colorize (colorCode : Nat) (v : String) : String :=
  "\x1b[" ++ toString colorCode ++ "m" ++ v ++ ansiReset

mutual

/-- `slog.Value`: a closed tagged union over the kinds the formatter
dispatches on.  `vnil` is the zero `slog.Value` (kind `KindAny`, payload nil);
`vany` is any other `KindAny` value, carrying its `Value.String()` rendering;
`logValuer` is a deferred (`KindLogValuer`) value that `Resolve` unwraps. -/
inductive Value where
  | vstr (s : String)
  | vint (i : Int)
  | vuint (n : Nat)
  | vfloat (text : String)
  | vbool (b : Bool)
  | vduration (text : String)
  | vtime (format : String → String)
  | vgroup (attrs : AttrList)
  | vnil
  | vany (text : String)
  | logValuer (v : Value)

/-- `[]slog.Attr`: a list of key/value pairs (group children, bound batches,
and a record's own attributes). -/
inductive AttrList where
  | anil
  | acons (key : String) (v : Value) (rest : AttrList)

end

/-- `len` of an attribute list. -/
def AttrList.length : AttrList → Nat
  | .anil => 0
  | .acons _ _ rest => 1 + rest.length

/-- `Value.Resolve()`: force a deferred (`LogValuer`) value to a concrete kind.
(The Go implementation additionally caps the unwrapping at 100 steps; the
embedding's values are finite so the cap is never reached.) -/
def Value.resolve : Value → Value
  | .logValuer v => Value.resolve v
  | v => v

/-- Whether a value is the zero `slog.Value` (kind `KindAny`, payload `nil`).
`slog.Value.Equal` against the zero value holds exactly for this value. -/
def Value.isNil : Value → Bool
  | .vnil => true
  | _ => false

/-- `slog.Value.String()` for the kinds the formatter's `default` branch can
see, plus the kinds whose text the value carries directly.  The `vtime` arm is
unreachable from the formatter (the `KindTime` case is matched before the
`default` branch), and group values never reach `String()` either. -/
def Value.stringRep : Value → String
  | .vstr s => s
  | .vint i => toString i
  | .vuint n => toString n
  | .vfloat text => text
  | .vbool b => if b then "true" else "false"
  | .vduration text => text
  | .vtime _ => ""
  | .vgroup _ => ""
  | .vnil => "<nil>"
  | .vany text => text
  | .logValuer _ => ""

/-- One character of Go's `fmt.Sprintf("%q", s)` (`strconv.Quote`): escape the
quote, backslash and common control characters; printable characters pass
through.  (strconv's escaping of other non-printables is not modelled; no
theorem below evaluates `%q` on such characters.) -/
def quoteRune (c : Char) : String :=
  if c = '"' then "\\\""
  else if c = '\\' then "\\\\"
  else if c = '\n' then "\\n"
  else if c = '\t' then "\\t"
  else if c = '\r' then "\\r"
  else String.singleton c

/-- `fmt.Sprintf("%q", s)`. -/
def goQuote (s : String) : String :=
  "\"" ++ String.join (s.data.map quoteRune) ++ "\""

/-- The `Options` struct. -/
structure Options where
  level : Int
  addSource : Bool
  colorful : Bool
  multiline : Bool
  timeFormat : String

/-- `DefaultTimeFormat = "2006-01-02 15:04:05.000"`. -/
def DefaultTimeFormat : String := "2006-01-02 15:04:05.000"

/-- `DefaultOptions()`: level Info (0), colorful on, default time format;
`AddSource` and `Multiline` are the zero value `false`. -/
def DefaultOptions : Options :=
  ⟨0, false, true, false, DefaultTimeFormat⟩

/-- `strings.Repeat(" ", 2*level)`, the indentation of `appendAttr`. -/
def indentOf (level : Nat) : String :=
  String.join (List.replicate (2 * level) " ")

/-- The shared `Appendf` shapes of `appendAttr`'s non-group arms:
multiline `"%s%s: %s\n"` (indent, colorized key, colorized value);
inline `" %s=%s"` (colorized key, colorized value).  Key and value colors are
`lightMagenta`/`lightBlue`, degraded to code `0` when `Colorful` is off. -/
def renderKV (opts : Options) (buf indent key val : String) (multiline : Bool) : String :=
  let keyColor := if opts.colorful then lightMagenta else 0
  let valColor := if opts.colorful then lightBlue else 0
  if multiline then
    buf ++ indent ++ colorize keyColor key ++ ": " ++ colorize valColor val ++ "\n"
  else
    buf ++ " " ++ colorize keyColor key ++ "=" ++ colorize valColor val

mutual

/-- `SlogPretty.appendAttr(buf, a, multiline, level)`.  The source first runs
`a.Value = a.Value.Resolve()` and then tests `a.Equal(slog.Attr{})`; here the
`Resolve` loop is the `logValuer` arm (resolving is unwrapping that
constructor), and since the equality with the zero attribute holds exactly
when the key is empty and the resolved value is the nil `Any` value, that test
is the `key = ""` guard of the `vnil` arm.  A `vnil` value with a non-empty
key falls to the source's `default` branch and renders as `<nil>` does in Go.
String and Time values are `%q`-quoted inline and unquoted in multiline mode;
Int/Uint/Float/Bool/Duration render unquoted in both; an empty group renders
nothing, a non-empty group renders its colorized key as a label and recurses
(multiline at `level+1`, inline at the fixed depth 2). -/
def appendAttr (opts : Options) (buf : String) (key : String) (a : Value)
    (multiline : Bool) (level : Nat) : String :=
  match a with
  | .logValuer v => appendAttr opts buf key v multiline level
  | .vnil =>
      if key = "" then buf
      else renderKV opts buf (indentOf level) key (Value.stringRep .vnil) multiline
  | .vstr s =>
      renderKV opts buf (indentOf level) key (if multiline then s else goQuote s) multiline
  | .vtime format =>
      let val := format opts.timeFormat
      renderKV opts buf (indentOf level) key (if multiline then val else goQuote val) multiline
  | .vint i => renderKV opts buf (indentOf level) key (toString i) multiline
  | .vuint n => renderKV opts buf (indentOf level) key (toString n) multiline
  | .vfloat text => renderKV opts buf (indentOf level) key text multiline
  | .vbool b => renderKV opts buf (indentOf level) key (Value.stringRep (.vbool b)) multiline
  | .vduration text => renderKV opts buf (indentOf level) key text multiline
  | .vgroup attrs =>
      if attrs.length = 0 then buf
      else
        let keyColor := if opts.colorful then lightMagenta else 0
        if multiline then
          appendAttrs opts (buf ++ indentOf level ++ colorize keyColor key ++ ":" ++ "\n")
            attrs multiline (level + 1)
        else
          appendAttrs opts (buf ++ " " ++ colorize keyColor key ++ ":") attrs multiline 2
  | .vany text => renderKV opts buf (indentOf level) key text multiline

/-- `for _, ga := range attrs { buf = h.appendAttr(buf, ga, multiline, level) }`. -/
def appendAttrs (opts : Options) (buf : String) (l : AttrList)
    (multiline : Bool) (level : Nat) : String :=
  match l with
  | .anil => buf
  | .acons k v rest =>
      appendAttrs opts (appendAttr opts buf k v multiline level) rest multiline level

end

/-- One element of the context chain: `groupOrAttrs { group string; attrs []slog.Attr }`.
A group-name marker has `group ≠ ""` and no attrs; an attrs batch has
`group = ""`. -/
structure GroupOrAttrs where
  group : String
  attrs : AttrList

/-- `slog.Record`, as consumed by the handler: `time` is `none` when
`r.Time.IsZero()` and otherwise carries the stdlib `Format` function
(pattern ↦ formatted text); `pc = 0` means no caller information; `file` and
`line` are the frame resolved from the pc; `attrs` is the record's own
attribute sequence in `r.Attrs` traversal order (`NumAttrs` is its length). -/
structure Record where
  time : Option (String → String)
  level : Int
  message : String
  pc : Nat
  file : String
  line : Nat
  attrs : AttrList

/-- The handler state: `SlogPretty { opts Options; goas []groupOrAttrs }`.
The output writer and mutex are modelled at the call sites (`handle`). -/
structure Handler where
  opts : Options
  goas : List GroupOrAttrs

/-- `filepath.Base`: last non-empty path component; `"."` for the empty path,
`"/"` for an all-slash path. -/
def filepathBase (p : String) : String :=
  if p = "" then "."
  else
    match ((p.splitOn "/").filter (fun c => c ≠ "")).getLast? with
    | some b => b
    | none => "/"

/-- `slog.Level.String()`'s suffix helper: the base name, with `%+d` of the
offset appended when the offset is non-zero. -/
def levelSuffixed (base : String) (val : Int) : String :=
  if val = 0 then base
  else if val > 0 then base ++ "+" ++ toString val
  else base ++ toString val

/-- `slog.Level.String()`. -/
def levelString (l : Int) : String :=
  if l < 0 then levelSuffixed "DEBUG" (l - (-4))
  else if l < 4 then levelSuffixed "INFO" (l - 0)
  else if l < 8 then levelSuffixed "WARN" (l - 4)
  else levelSuffixed "ERROR" (l - 8)

/-- `SlogPretty.setColorLevel`: the four standard levels get fixed colorized
labels (unconditionally colorized — the function never consults
`opts.Colorful`); any other level falls back to `level.String()`. -/
def setColorLevel (level : Int) : String :=
  if level = -4 then colorize lightMagenta "DEBUG"
  else if level = 0 then colorize lightCyan "INFO"
  else if level = 4 then colorize lightYellow "WARN"
  else if level = 8 then colorize lightRed "ERROR"
  else levelString level

/-- `fmt.Appendf(buf, "%-7s", s)`: left-align `s` in a field of width 7,
padding with spaces on the right when `s` is shorter than 7 characters. -/
def padRight7 (s : String) : String :=
  s ++ String.join (List.replicate (7 - s.length) " ")

/-- `SlogPretty.appendHeader(buf, r)`: optional colorized timestamp followed
by a space; the `setColorLevel` label through `"%-7s"`; a space and the
message, unconditionally wrapped in the `white` color; optionally
`" source: <base>:<line>"` when `AddSource` is set and the record has a pc. -/
def appendHeader (opts : Options) (buf : String) (r : Record) : String :=
  let buf :=
    match r.time with
    | none => buf
    | some format =>
        let timeStr := format opts.timeFormat
        let timeStr := if opts.colorful then colorize lightGray timeStr else timeStr
        buf ++ timeStr ++ " "
  let buf := buf ++ padRight7 (setColorLevel r.level)
  let buf := buf ++ " " ++ colorize white r.message
  if opts.addSource ∧ r.pc ≠ 0 then
    let source := "source: " ++ filepathBase r.file ++ ":" ++ toString r.line
    let source := if opts.colorful then colorize darkGray source else source
    buf ++ " " ++ source
  else buf

/-- The loop body of `removeEmptyGroup`, phrased on the reversed chain:
`for len(goas) > 0 && goas[len(goas)-1].group != "" { goas = goas[:len(goas)-1] }`
pops elements from the tail while the tail element is a group marker, which on
the reversed list is dropping leading group markers. -/
def dropLeadingGroups : List GroupOrAttrs → List GroupOrAttrs
  | [] => []
  | g :: rest => if g.group ≠ "" then dropLeadingGroups rest else g :: rest

/-- `SlogPretty.removeEmptyGroup(r)`'s effect on the chain, as a function of
`r.NumAttrs()`: when the record has no own attributes, pop trailing group
markers; otherwise leave the chain alone.  (The source method has a pointer
receiver and reassigns `h.goas`; `handleRender` below threads that mutation.) -/
def removeEmptyGroup (numAttrs : Nat) (goas : List GroupOrAttrs) : List GroupOrAttrs :=
  if numAttrs = 0 then (dropLeadingGroups goas.reverse).reverse else goas

/-- `SlogPretty.appendMultilineGroupOrAttrs(buf, level)`: walk the chain; a
group marker appends `strings.Repeat("  ", level)` and its magenta-colorized
name with a trailing colon and increments the loop-carried `level`; an attrs
batch appends a newline when non-empty and renders each attribute in
multiline mode at the current level. -/
def appendMultilineGroupOrAttrs (opts : Options) :
    List GroupOrAttrs → String → Nat → String
  | [], buf, _ => buf
  | goa :: rest, buf, level =>
      if goa.group ≠ "" then
        appendMultilineGroupOrAttrs opts rest
          (buf ++ String.join (List.replicate level "  ") ++ colorize magenta goa.group ++ ":")
          (level + 1)
      else
        let buf := if goa.attrs.length > 0 then buf ++ "\n" else buf
        appendMultilineGroupOrAttrs opts rest (appendAttrs opts buf goa.attrs true level) level

/-- `SlogPretty.appendMultilineAttrs(buf, r)`: nothing when the record has no
own attributes; otherwise a newline followed by each attribute rendered in
multiline mode at level 1. -/
def appendMultilineAttrs (opts : Options) (buf : String) (r : Record) : String :=
  if r.attrs.length = 0 then buf
  else appendAttrs opts (buf ++ "\n") r.attrs true 1

/-- The chain part of `SlogPretty.appendInLineAttrs`: for each chain element,
a group marker appends `" <name>:"` (cyan-colorized only when `Colorful` is
on), and the element's attrs are rendered inline at level 0. -/
def appendInLineChain (opts : Options) : List GroupOrAttrs → String → String
  | [], buf => buf
  | goa :: rest, buf =>
      let buf :=
        if goa.group ≠ "" then
          if opts.colorful then buf ++ " " ++ colorize cyan goa.group ++ ":"
          else buf ++ " " ++ goa.group ++ ":"
        else buf
      appendInLineChain opts rest (appendAttrs opts buf goa.attrs false 0)

/-- `SlogPretty.appendInLineAttrs(buf, r)`: the chain, then the record's own
attributes, all inline at level 0. -/
def appendInLineAttrs (opts : Options) (goas : List GroupOrAttrs) (buf : String)
    (r : Record) : String :=
  appendAttrs opts (appendInLineChain opts goas buf) r.attrs false 0

/-- The rendering part of `SlogPretty.Handle`: header, the (mutating)
`removeEmptyGroup` trim, then the multiline or inline attribute section and
the final newline.  Returns the handler state after the call (the source's
`removeEmptyGroup` reassigns `h.goas` through the pointer receiver, so the
trimmed chain persists in the handler) next to the rendered buffer. -/
def handleRender (h : Handler) (r : Record) : Handler × String :=
  let buf := appendHeader h.opts "" r
  let goas := removeEmptyGroup r.attrs.length h.goas
  let buf :=
    if h.opts.multiline then
      appendMultilineAttrs h.opts (appendMultilineGroupOrAttrs h.opts goas buf 1) r
    else
      appendInLineAttrs h.opts goas buf r
  (⟨h.opts, goas⟩, buf ++ "\n")

/-- `SlogPretty.Handle(ctx, r)`: render the whole record into one buffer, then
`h.mu.Lock(); defer h.mu.Unlock(); _, err := h.out.Write(buf); return err`.
The sink is the `out` writer; the middle component lists the buffers passed
to `Write` (exactly one per call), and the last component is the returned
error, exactly the sink's error for that buffer. -/
def handle (h : Handler) (sink : String → Option String) (r : Record) :
    Handler × List String × Option String :=
  let step := handleRender h r
  (step.1, [step.2], sink step.2)

/-- `SlogPretty.Enabled(ctx, level)`: `level >= h.opts.Level.Level()`. -/
def enabled (opts : Options) (level : Int) : Bool :=
  decide (level ≥ opts.level)

/-- Modelled from the spec: the gate composition of the emit pipeline.  The
record flow `record → LevelFilter gate → … → OutputSink write` lives in the
external logging façade (the `log/slog` package calls `Enabled` and invokes
`Handle` only when it returns true); that façade is not part of this
repository's sources.  `enabled` itself is the source's `Enabled`. -/
def emitGated (h : Handler) (sink : String → Option String) (r : Record) :
    Handler × List String × Option String :=
  if enabled h.opts r.level then handle h sink r else (h, [], none)

/-- `SlogPretty.withGroupOrAttrs(goa)`: copy the handler, allocate a fresh
chain one longer, copy the old elements and place `goa` last — i.e. the new
chain is the old chain with `goa` appended; the receiver is not modified. -/
def withGroupOrAttrs (h : Handler) (goa : GroupOrAttrs) : Handler :=
  ⟨h.opts, h.goas ++ [goa]⟩

/-- `SlogPretty.WithAttrs(attrs)`: the same handler when `attrs` is empty,
else `withGroupOrAttrs` with an attrs batch. -/
def withAttrs (h : Handler) (attrs : AttrList) : Handler :=
  if attrs.length = 0 then h else withGroupOrAttrs h ⟨"", attrs⟩

/-- `SlogPretty.WithGroup(name)`: the same handler when `name` is empty, else
`withGroupOrAttrs` with a group marker. -/
def withGroup (h : Handler) (name : String) : Handler :=
  if name = "" then h else withGroupOrAttrs h ⟨name, .anil⟩

/-- `New(out, opts)`: a nil `opts` is replaced by `DefaultOptions()`; an empty
`TimeFormat` is overwritten with `DefaultTimeFormat` **through the caller's
pointer** (the assignment `opts.TimeFormat = DefaultTimeFormat` mutates the
caller-supplied struct); the handler then stores a copy `*opts`.  The first
component is the caller's struct as observable after the call (`none` when the
caller passed nil), the second the constructed handler. -/
def New (opts : Option Options) : Option Options × Handler :=
  match opts with
  | none =>
      let o := DefaultOptions
      let o := if o.timeFormat = "" then { o with timeFormat := DefaultTimeFormat } else o
      (none, ⟨o, []⟩)
  | some o =>
      let o2 := if o.timeFormat = "" then { o with timeFormat := DefaultTimeFormat } else o
      (some o2, ⟨o2, []⟩)

/-- Removal of ANSI escape sequences (`ESC … m`) from a character list: the
`Bool` state is true while inside an escape sequence. -/
def stripAnsiAux : Bool → List Char → List Char
  | _, [] => []
  | false, c :: rest =>
      if c = '\x1b' then stripAnsiAux true rest else c :: stripAnsiAux false rest
  | true, c :: rest =>
      if c = 'm' then stripAnsiAux false rest else stripAnsiAux true rest

/-- Removal of ANSI escape sequences from a string. -/
def stripAnsi (s : String) : String :=
  ⟨stripAnsiAux false s.data⟩

/-! ### Concrete fixtures used by the theorems below -/

/-- Options with colorization disabled, inline mode, Info threshold. -/
def optsPlain : Options := ⟨0, false, false, false, DefaultTimeFormat⟩

/-- Options with colorization enabled, inline mode, Info threshold. -/
def optsColor : Options := ⟨0, false, true, false, DefaultTimeFormat⟩

/-- A handler derived once through `WithGroup("user")`. -/
def handlerUser : Handler := ⟨optsPlain, [⟨"user", .anil⟩]⟩

/-- An Info record with no own attributes. -/
def recNoAttrs : Record := ⟨none, 0, "ping", 0, "", 0, .anil⟩

/-- An Info record carrying the single attribute `id="bob"`. -/
def recWithId : Record := ⟨none, 0, "ping", 0, "", 0, .acons "id" (.vstr "bob") .anil⟩

/-- The spec scenario record: Info, message `Server started`, one attribute
`port=8080`, with a fixed timestamp rendering. -/
def recServer : Record :=
  ⟨some (fun _ => "2025-01-01 00:00:00.000"), 0, "Server started", 0, "", 0,
    .acons "port" (.vint 8080) .anil⟩

/-- A Debug-level record (below the Info threshold of the fixtures). -/
def recDebug : Record := ⟨none, -4, "dbg", 0, "", 0, .anil⟩

/-- A sink that always succeeds. -/
def sinkOk : String → Option String := fun _ => none

/-! ### Claim theorems -/

/-- C1.  The claim states that the empty-group trimming of a render call never
changes the handler's stored chain.  The code refutes it: `removeEmptyGroup`
has a pointer receiver and reassigns `h.goas`, so the trim persists.  At the
concrete input below — a handler derived through `WithGroup("user")` — a
render of a record with zero own attributes empties the stored chain, and a
subsequent emit of a record **with** attributes renders differently from the
same emit through the untouched handler (the `user:` label is gone). -/
theorem trimMutatesStoredChain :
    (handleRender handlerUser recNoAttrs).1.goas = [] ∧
    handlerUser.goas = [⟨"user", .anil⟩] ∧
    (handleRender (handleRender handlerUser recNoAttrs).1 recWithId).2
      = "\x1b[96mINFO\x1b[0m \x1b[97mping\x1b[0m \x1b[0mid\x1b[0m=\x1b[0m\"bob\"\x1b[0m\n" ∧
    (handleRender handlerUser recWithId).2
      = "\x1b[96mINFO\x1b[0m \x1b[97mping\x1b[0m user: \x1b[0mid\x1b[0m=\x1b[0m\"bob\"\x1b[0m\n" ∧
    (handleRender (handleRender handlerUser recNoAttrs).1 recWithId).2
      ≠ (handleRender handlerUser recWithId).2 := by
  refine ⟨rfl, rfl, rfl, rfl, ?_⟩
  decide

/-- C2.  The claim states that disabling colorization yields escape-free
output equal to the colorized output with escapes removed, and that the
scenario record renders as `"<ts> INFO    Server started port=8080\n"`.
The code refutes both parts: `setColorLevel` and the message rendering
colorize unconditionally, attribute keys/values are wrapped with color code 0
when `Colorful` is off, and the `%-7s` padding is applied to the
escape-wrapped level string (13 characters), so no padding is emitted.  The
colorless output therefore still contains escape sequences, and even after
stripping all escapes the level column is `INFO ` rather than `INFO    `. -/
theorem colorlessOutputHasEscapes :
    (handleRender ⟨optsPlain, []⟩ recServer).2
      = "2025-01-01 00:00:00.000 \x1b[96mINFO\x1b[0m \x1b[97mServer started\x1b[0m \x1b[0mport\x1b[0m=\x1b[0m8080\x1b[0m\n" ∧
    (handleRender ⟨optsPlain, []⟩ recServer).2
      ≠ "2025-01-01 00:00:00.000 INFO    Server started port=8080\n" ∧
    stripAnsi (handleRender ⟨optsColor, []⟩ recServer).2
      ≠ (handleRender ⟨optsPlain, []⟩ recServer).2 ∧
    stripAnsi (handleRender ⟨optsColor, []⟩ recServer).2
      = "2025-01-01 00:00:00.000 INFO Server started port=8080\n" ∧
    "2025-01-01 00:00:00.000 INFO Server started port=8080\n"
      ≠ "2025-01-01 00:00:00.000 INFO    Server started port=8080\n" := by
  refine ⟨rfl, by decide, by decide, rfl, by decide⟩

/-- C5 counterexample.  The claim states that String values are quoted in
both modes; at the concrete attribute `status="inactive"` in multiline mode,
the rendered value is `inactive` with no quote character anywhere in the
output. -/
theorem stringMultilineUnquotedCex :
    appendAttr optsPlain "" "status" (.vstr "inactive") true 1
      = "  \x1b[0mstatus\x1b[0m: \x1b[0minactive\x1b[0m\n" ∧
    ("  \x1b[0mstatus\x1b[0m: \x1b[0minactive\x1b[0m\n".data.contains '"') = false := by
  exact ⟨rfl, by decide⟩

/-- C5 amended.  String values are `%q`-quoted in inline mode and rendered
unquoted in multiline mode: for every options value, buffer, key, string and
level, the inline rendering wraps the value in `goQuote` (whose result starts
and ends with a quote character) while the multiline rendering embeds the raw
string between `": "` and the newline. -/
theorem stringQuotingSpec (opts : Options) (buf key s : String) (level : Nat) :
    appendAttr opts buf key (.vstr s) false level
      = buf ++ " " ++ colorize (if opts.colorful then lightMagenta else 0) key
          ++ "=" ++ colorize (if opts.colorful then lightBlue else 0) (goQuote s) ∧
    appendAttr opts buf key (.vstr s) true level
      = buf ++ indentOf level ++ colorize (if opts.colorful then lightMagenta else 0) key
          ++ ": " ++ colorize (if opts.colorful then lightBlue else 0) s ++ "\n" ∧
    goQuote s = "\"" ++ String.join (s.data.map quoteRune) ++ "\"" := by
  refine ⟨?_, ?_, rfl⟩ <;> simp [appendAttr, renderKV]

/-- C7.  A Group attribute with zero children contributes zero bytes in
either mode at any nesting depth; and the scenario group `details` whose only
child is the empty group `metrics` renders as the `details:` label line with
nothing beneath it (the `metrics` child contributes nothing). -/
theorem emptyGroupElision :
    (∀ (opts : Options) (buf key : String) (multiline : Bool) (level : Nat),
        appendAttr opts buf key (.vgroup .anil) multiline level = buf) ∧
    appendAttr optsPlain "" "details"
        (.vgroup (.acons "metrics" (.vgroup .anil) .anil)) true 1
      = "  " ++ colorize 0 "details" ++ ":" ++ "\n" := by
  refine ⟨?_, rfl⟩
  intro opts buf key multiline level
  simp [appendAttr, AttrList.length]

/-- C3.  Deriving with an empty batch or empty group name returns the very
same handler; deriving with a non-empty batch or name returns a handler whose
chain is the original chain with exactly one element appended (so its length
grows by one and the original chain is an unchanged front segment of it). -/
theorem deriveAppendsExactlyOne (h : Handler) (attrs : AttrList) (name : String)
    (ha : attrs ≠ .anil) (hn : name ≠ "") :
    withAttrs h .anil = h ∧
    withGroup h "" = h ∧
    (withAttrs h attrs).goas = h.goas ++ [⟨"", attrs⟩] ∧
    (withAttrs h attrs).goas.length = h.goas.length + 1 ∧
    (withGroup h name).goas = h.goas ++ [⟨name, .anil⟩] ∧
    (withGroup h name).goas.length = h.goas.length + 1 := by
  have hlen : attrs.length ≠ 0 := by
    cases attrs with
    | anil => exact absurd rfl ha
    | acons k v rest => simp [AttrList.length]
  refine ⟨by simp [withAttrs, AttrList.length], by simp [withGroup], ?_, ?_, ?_, ?_⟩ <;>
    simp [withAttrs, withGroup, withGroupOrAttrs, hlen, hn]

/-- C3 witness: the derivation facts at a concrete handler, batch and name. -/
theorem deriveAppendsExactlyOneWitness :
    withAttrs handlerUser .anil = handlerUser ∧
    withGroup handlerUser "" = handlerUser ∧
    (withAttrs handlerUser (.acons "k" (.vstr "v") .anil)).goas
      = handlerUser.goas ++ [⟨"", .acons "k" (.vstr "v") .anil⟩] ∧
    (withAttrs handlerUser (.acons "k" (.vstr "v") .anil)).goas.length
      = handlerUser.goas.length + 1 ∧
    (withGroup handlerUser "g").goas = handlerUser.goas ++ [⟨"g", .anil⟩] ∧
    (withGroup handlerUser "g").goas.length = handlerUser.goas.length + 1 :=
  deriveAppendsExactlyOne handlerUser (.acons "k" (.vstr "v") .anil) "g"
    (fun hc => AttrList.noConfusion hc) (by decide)

/-- C4.  A record whose level is below the configured threshold is rejected
by the gate: the emit pipeline performs no write at all (no partial header or
attribute text), returns no error, and leaves the handler untouched. -/
theorem belowThresholdNoOutput (h : Handler) (sink : String → Option String)
    (r : Record) (hlt : r.level < h.opts.level) :
    emitGated h sink r = (h, [], none) := by
  have hen : enabled h.opts r.level = false := by
    simp only [enabled, decide_eq_false_iff_not]
    omega
  simp [emitGated, hen]

/-- C4 witness: a Debug record against the Info-threshold fixture handler. -/
theorem belowThresholdNoOutputWitness :
    emitGated handlerUser sinkOk recDebug = (handlerUser, [], none) :=
  belowThresholdNoOutput handlerUser sinkOk recDebug (by decide)

/-- Decomposition of `dropLeadingGroups`: the input splits into a dropped
front segment of group markers followed by the result, whose head (if any) is
an attrs batch. -/
theorem dropLeadingGroups_decomp (l : List GroupOrAttrs) :
    ∃ dropped, l = dropped ++ dropLeadingGroups l ∧
      (∀ g ∈ dropped, g.group ≠ "") ∧
      (∀ g, (dropLeadingGroups l).head? = some g → g.group = "") := by
  induction l with
  | nil => exact ⟨[], rfl, by simp, by simp [dropLeadingGroups]⟩
  | cons g rest ih =>
      by_cases hg : g.group = ""
      · refine ⟨[], by simp [dropLeadingGroups, hg], by simp, ?_⟩
        intro g' hg'
        simp [dropLeadingGroups, hg] at hg'
        simpa [← hg'] using hg
      · obtain ⟨d, hd, hall, hhead⟩ := ih
        refine ⟨g :: d, ?_, ?_, ?_⟩
        · simpa [dropLeadingGroups, hg] using hd
        · intro g' hg'
          rcases List.mem_cons.mp hg' with h1 | h2
          · simpa [h1] using hg
          · exact hall g' h2
        · simpa [dropLeadingGroups, hg] using hhead

/-- C6.  For a record with zero own attributes, the effective chain is the
stored chain with a suffix of group markers popped from the tail, stopping at
the first attrs batch (the last element of the result, if any, is an attrs
batch) or at chain start; for a record with one or more own attributes the
chain is returned as is. -/
theorem removeEmptyGroupSpec (goas : List GroupOrAttrs) (n : Nat) (hn : n ≠ 0) :
    (∃ dropped, goas = removeEmptyGroup 0 goas ++ dropped ∧
        (∀ g ∈ dropped, g.group ≠ "") ∧
        (∀ g, (removeEmptyGroup 0 goas).getLast? = some g → g.group = "")) ∧
    removeEmptyGroup n goas = goas := by
  constructor
  · obtain ⟨d, hd, hall, hhead⟩ := dropLeadingGroups_decomp goas.reverse
    refine ⟨d.reverse, ?_, ?_, ?_⟩
    · have := congrArg List.reverse hd
      simpa [removeEmptyGroup] using this
    · intro g hg
      exact hall g (List.mem_reverse.mp hg)
    · intro g hg
      apply hhead
      rw [removeEmptyGroup] at hg
      simpa [List.getLast?_reverse] using hg
  · simp [removeEmptyGroup, hn]

/-- C6 witness: the decomposition at a concrete chain (one trailing group
marker after an attrs batch) and a record with one attribute. -/
theorem removeEmptyGroupSpecWitness :
    (∃ dropped,
        [(⟨"", .acons "k" (.vstr "v") .anil⟩ : GroupOrAttrs), ⟨"user", .anil⟩]
          = removeEmptyGroup 0 [⟨"", .acons "k" (.vstr "v") .anil⟩, ⟨"user", .anil⟩] ++ dropped ∧
        (∀ g ∈ dropped, g.group ≠ "") ∧
        (∀ g, (removeEmptyGroup 0
            [(⟨"", .acons "k" (.vstr "v") .anil⟩ : GroupOrAttrs), ⟨"user", .anil⟩]).getLast?
              = some g → g.group = "")) ∧
    removeEmptyGroup 1 [(⟨"", .acons "k" (.vstr "v") .anil⟩ : GroupOrAttrs), ⟨"user", .anil⟩]
      = [⟨"", .acons "k" (.vstr "v") .anil⟩, ⟨"user", .anil⟩] :=
  removeEmptyGroupSpec [⟨"", .acons "k" (.vstr "v") .anil⟩, ⟨"user", .anil⟩] 1 (by decide)

/-- The formatter's output depends only on the resolved value: unwrapping the
`LogValuer` chain before dispatching (which is what the source's
`a.Value = a.Value.Resolve()` does) leaves the output unchanged. -/
theorem appendAttr_eq_resolve (opts : Options) (buf key : String)
    (multiline : Bool) (level : Nat) :
    (a : Value) →
      appendAttr opts buf key a multiline level
        = appendAttr opts buf key a.resolve multiline level
  | .logValuer v => by
      rw [show (Value.logValuer v).resolve = v.resolve from rfl]
      rw [show appendAttr opts buf key (.logValuer v) multiline level
            = appendAttr opts buf key v multiline level from rfl]
      exact appendAttr_eq_resolve opts buf key multiline level v
  | .vstr s => rfl
  | .vint i => rfl
  | .vuint n => rfl
  | .vfloat t => rfl
  | .vbool b => rfl
  | .vduration t => rfl
  | .vtime f => rfl
  | .vgroup attrs => rfl
  | .vnil => rfl
  | .vany t => rfl

/-- C8.  The value is resolved before its kind is inspected — the output
equals the output on the pre-resolved attribute — and when the resolved
attribute is the zero attribute (empty key, nil value) the formatter returns
the buffer unchanged, so a zero-valued attribute never reaches the output. -/
theorem resolveBeforeDispatch (opts : Options) (buf key : String) (a : Value)
    (multiline : Bool) (level : Nat) (hkey : key = "") (hres : a.resolve = .vnil) :
    appendAttr opts buf key a multiline level
      = appendAttr opts buf key a.resolve multiline level ∧
    appendAttr opts buf key a multiline level = buf := by
  have h1 := appendAttr_eq_resolve opts buf key multiline level a
  refine ⟨h1, ?_⟩
  rw [h1, hres, hkey]
  simp [appendAttr]

/-- C8 witness: a deferred value resolving to the zero value, under the empty
key, renders nothing. -/
theorem resolveBeforeDispatchWitness :
    appendAttr optsPlain "x" "" (.logValuer .vnil) false 0
      = appendAttr optsPlain "x" "" (Value.logValuer .vnil).resolve false 0 ∧
    appendAttr optsPlain "x" "" (.logValuer .vnil) false 0 = "x" :=
  resolveBeforeDispatch optsPlain "x" "" (.logValuer .vnil) false 0 rfl rfl

/-- C9.  An admitted record is rendered into a single buffer (ending in the
final newline) before the sink is touched; the sink then receives exactly one
write of that whole buffer, and the error the sink reports for it is returned
unchanged — no retry, no swallowing. -/
theorem singleWritePassthrough (h : Handler) (sink : String → Option String)
    (r : Record) :
    (handle h sink r).2.1 = [(handleRender h r).2] ∧
    (handle h sink r).2.2 = sink ((handleRender h r).2) ∧
    (handle h sink r).1 = (handleRender h r).1 ∧
    (∃ s, (handleRender h r).2 = s ++ "\n") ∧
    (∀ e, sink ((handleRender h r).2) = some e → (handle h sink r).2.2 = some e) := by
  refine ⟨rfl, rfl, rfl, ⟨_, rfl⟩, fun e he => he⟩

/-- C10.  Calling `New` with a non-nil options struct whose `TimeFormat` is
empty writes `DefaultTimeFormat` into the caller's struct (the caller observes
the field changed to a non-empty value, all other fields untouched), and the
handler's stored copy equals that updated struct with an empty chain. -/
theorem newWritesDefaultTimeFormat (o : Options) (ho : o.timeFormat = "") :
    (New (some o)).1 = some { o with timeFormat := DefaultTimeFormat } ∧
    (New (some o)).2.opts = { o with timeFormat := DefaultTimeFormat } ∧
    (New (some o)).2.goas = [] ∧
    DefaultTimeFormat ≠ "" := by
  refine ⟨?_, ?_, ?_, by decide⟩ <;> simp [New, ho]

/-- C10 witness: `New` at a concrete options struct with an empty
`TimeFormat`. -/
theorem newWritesDefaultTimeFormatWitness :
    (New (some ⟨0, false, false, false, ""⟩)).1
      = some { (⟨0, false, false, false, ""⟩ : Options) with timeFormat := DefaultTimeFormat } ∧
    (New (some ⟨0, false, false, false, ""⟩)).2.opts
      = { (⟨0, false, false, false, ""⟩ : Options) with timeFormat := DefaultTimeFormat } ∧
    (New (some ⟨0, false, false, false, ""⟩)).2.goas = [] ∧
    DefaultTimeFormat ≠ "" :=
  newWritesDefaultTimeFormat ⟨0, false, false, false, ""⟩ rfl

end Slogpretty
